import Mathlib

/-!
# Shallow embedding of the `console` package (cmd.go, console.go)

Modelling conventions, chosen once for the whole file:

* Go strings are Lean `String`; Go `error` values are modelled by their
  message (`GoErr := String`), since the package only creates errors with
  `errors.New` / `fmt.Errorf` and compares them by propagation.
* A Go function that can panic (nil-pointer dereference) returns
  `GoRes α`: `.crash` is a runtime panic, `.ret v` a normal return.
* The `Cmd.Console` back-pointer (`*Console` in Go) cannot be embedded
  directly (a `Console` contains its `Cmd`s).  `Cmd.Handle` reads exactly
  one field through that pointer, `isOsPipe`, so the back-reference is
  modelled as `Option Bool`: `none` is a nil pointer, `some b` is a
  pointer to a console whose `isOsPipe` field is `b`.
* Handlers (`func(c *Console, cmd string) error`) are opaque user
  callbacks; the console argument they receive is the same back-pointer,
  so they are modelled as `String → Option GoErr` closures.
* Side effects of the dispatch loop are made explicit: `handleInput`
  additionally reports the list of rendered error messages (without the
  ANSI styling applied by `styleError`, which lives outside the embedded
  logic) and the names of the commands whose `Handle` was invoked.
* `os.Stdin.Stat()` is an external call; `fileIsPipe` and `New` take its
  outcome as a parameter: `.ok fm` a successful stat with file mode `fm`,
  `.error e` a failed stat (in which case the Go `FileInfo` is nil).
* External resources (the liner, contexts, history files, the terminal)
  are not part of the state; the functions touching only them (`Close`)
  keep their return values.
-/

/-- Go `error` values, modelled by their message. -/
abbrev GoErr := String

/-- `cmd.go`: `ErrCmdNoHandler = errors.New("command has no handler")`. -/
def ErrCmdNoHandler : GoErr := "command has no handler"

/-- Outcome of a Go computation that may panic. -/
inductive GoRes (α : Type) where
  /-- A runtime panic (nil-pointer dereference). -/
  | crash : GoRes α
  /-- A normal return. -/
  | ret : α → GoRes α
  deriving DecidableEq, Repr

/-- `cmd.go`: the `Cmd` struct.  Field defaults are the Go zero values
used when a literal omits the field. -/
structure Cmd where
  Name : String := ""
  Aliases : List String := []
  Description : String := ""
  IgnorePipe : Bool := false
  Matcher : Option (String → Bool) := none
  IgnoreDefaultMatcher : Bool := false
  Handler : Option (String → Option GoErr) := none
  /-- The `Console *Console` back-pointer, projected to the only field
  read through it (`isOsPipe`); `none` is a nil pointer. -/
  Console : Option Bool := none

/-- Go `strings.Split(s, " ")` on the character list: splits around each
instance of the single-space separator. -/
def goSplitSpaceAux : List Char → List Char → List (List Char)
  | [], acc => [acc.reverse]
  | ch :: rest, acc =>
    if ch = ' ' then acc.reverse :: goSplitSpaceAux rest []
    else goSplitSpaceAux rest (ch :: acc)

/-- Go `strings.Split(s, " ")`. -/
def goSplitSpace (s : String) : List String :=
  (goSplitSpaceAux s.data []).map String.mk

/-- `cmd.go` `splitCmdArgs`: `args := strings.Split(cmd, " "); return
args[0], args[1:]`.  (`strings.Split` never returns an empty slice, so
the first pattern is unreachable.) -/
def splitCmdArgs (cmd : String) : String × List String :=
  match goSplitSpace cmd with
  | [] => ("", [])
  | a :: rest => (a, rest)

/-- `cmd.go` `(c *Cmd) defaultMatcher`. -/
def Cmd.defaultMatcher (c : Cmd) (cmd : String) : Bool :=
  let t := (splitCmdArgs cmd).1
  if t = c.Name then true
  else c.Aliases.any fun al => t == al

/-- `cmd.go` `(c *Cmd) Match`. -/
def Cmd.Match (c : Cmd) (cmd : String) : Bool :=
  if c.defaultMatcher cmd && !c.IgnoreDefaultMatcher then true
  else
    match c.Matcher with
    | some m => m cmd
    | none => false

/-- `cmd.go` `(c *Cmd) Handle`.  The first statement reads
`c.Console.isOsPipe`: with a nil back-pointer this is a nil-pointer
dereference, i.e. a panic. -/
def Cmd.Handle (c : Cmd) (cmd : String) : GoRes (Option GoErr) :=
  match c.Console with
  | none => .crash
  | some isOsPipe =>
    if isOsPipe && c.IgnorePipe then .ret none
    else
      match c.Handler with
      | some h => .ret (h cmd)
      | none => .ret (some ErrCmdNoHandler)

/-- `cmd.go` `helpCmd` (its handler prints the help view and returns
nil; the printing is an external effect). -/
def helpCmd : Cmd :=
  { Name := "help"
    Description := "Show the help"
    Handler := some fun _ => none }

/-- `cmd.go` `quitCmd` (its handler calls `c.Close()` and returns nil;
`Close` always returns nil, see `Console.Close`). -/
def quitCmd : Cmd :=
  { Name := "quit"
    Aliases := ["exit"]
    Description := "Quit the console"
    IgnorePipe := true
    Handler := some fun _ => none }

/-- `cmd.go` `clearCmd` (its handler clears the terminal and returns
nil). -/
def clearCmd : Cmd :=
  { Name := "clear"
    Description := "Clear the screen"
    IgnorePipe := true
    Handler := some fun _ => none }

/-- `cmd.go` `defaultCmds`. -/
def defaultCmds : List Cmd := [helpCmd, clearCmd]

/-- `console.go`: the `Console` struct.  The liner and the contexts are
external resources and carry no modelled state. -/
structure Console where
  isOsPipe : Bool := false
  historyFile : String := ""
  welcomeMsg : String := ""
  cmds : List Cmd := []
  exitCmd : Option Cmd := none

/-- `console.go` `defaultHistoryFile = filepath.Join(os.TempDir(),
".console_history")`; the temp directory is environment-dependent and
modelled as `/tmp`. -/
def defaultHistoryFile : String := "/tmp/.console_history"

/-- `console.go` `(c *Console) ExitCmd`: `return c.exitCmd, c.exitCmd != nil`. -/
def Console.ExitCmd (c : Console) : Option Cmd × Bool :=
  (c.exitCmd, c.exitCmd.isSome)

/-- `console.go` `(c *Console) Close`: cancels the context, flushes the
history and closes the liner — all external effects — and returns nil. -/
def Console.Close (_ : Console) : Option GoErr := none

/-- File mode of standard input, projected to the one bit the code
inspects (`fi.Mode() & os.ModeNamedPipe != 0`). -/
structure FileMode where
  namedPipe : Bool
  deriving DecidableEq, Repr

/-- `console.go` `fileIsPipe`: `fi, _ := in.Stat()` DISCARDS the stat
error; on a failed stat `fi` is a nil interface and `fi.Mode()` panics.
The returned error is always nil. -/
def fileIsPipe (stat : Except GoErr FileMode) : GoRes (Bool × Option GoErr) :=
  match stat with
  | .error _ => .crash
  | .ok fi => if fi.namedPipe then .ret (true, none) else .ret (false, none)

/-- `console.go` functional options (`Opts`); options touching only the
liner (`WithHandleCtrlC`) or the context (`WithContext`) mutate
unmodelled resources and are identities on the modelled state. -/
def WithExitCmd (e : Cmd) : Console → Console :=
  fun c => { c with exitCmd := some e }

/-- `console.go` `WithHistoryFile`. -/
def WithHistoryFile (file : String) : Console → Console :=
  fun c => { c with historyFile := file }

/-- `console.go` `WithWelcomeMsg`. -/
def WithWelcomeMsg (msg : String) : Console → Console :=
  fun c => { c with welcomeMsg := msg }

/-- `console.go` `New`: builds the console with the default history
file, `quitCmd` as exit command and `defaultCmds` as registry (note:
their `Console` back-pointers are never set), then runs the pipe check
and applies the options.  `stat` is the outcome of `os.Stdin.Stat()`. -/
def New (stat : Except GoErr FileMode) (opts : List (Console → Console)) :
    GoRes (Except GoErr Console) :=
  let c : Console :=
    { historyFile := defaultHistoryFile
      exitCmd := some quitCmd
      cmds := defaultCmds }
  match fileIsPipe stat with
  | .crash => .crash
  | .ret (isPipe, err) =>
    match err with
    | some e => .ret (.error ("error checking if stdin is a pipe: " ++ e))
    | none =>
      let c := if isPipe then { c with isOsPipe := true } else c
      let c := opts.foldl (fun c o => o c) c
      .ret (.ok c)

/-- `console.go` `checkCmdRegistered`: scans the registry; for each
registered `n` walks `append(n.Aliases, n.Name)` and reports a clash if
an entry equals the candidate's name or one of its aliases. -/
def Console.checkCmdRegistered (c : Console) (cmd : Cmd) : Bool :=
  c.cmds.any fun n =>
    (n.Aliases ++ [n.Name]).any fun v =>
      v == cmd.Name || cmd.Aliases.any fun a => a == v

/-- The message of `errors.New("command matches an existing command")`. -/
def dupErr : GoErr := "command matches an existing command"

/-- `console.go` `RegisterCommands`: per candidate, in argument order,
fail on a registry clash, otherwise set the back-pointer and append. -/
def Console.RegisterCommands (c : Console) : List Cmd → Console × Option GoErr
  | [] => (c, none)
  | cmd :: rest =>
    if c.checkCmdRegistered cmd then (c, some dupErr)
    else
      Console.RegisterCommands
        { c with cmds := c.cmds ++ [{ cmd with Console := some c.isOsPipe }] } rest

/-- Observable outcome of one `handleInput` call: the two returned
values plus the explicit effect log (rendered error messages, names of
the commands whose `Handle` was invoked). -/
structure HandleInputOut where
  exit : Bool
  err : Option GoErr
  rendered : List String
  invoked : List String
  deriving DecidableEq, Repr

/-- The message rendered by the dispatch loop when a matched command's
handler fails: `fmt.Sprintf("error running command %s: %s\n", ...)`
(recorded without the `styleError` ANSI styling). -/
def renderCmdErr (name : String) : Option GoErr → List String
  | some e => ["error running command " ++ name ++ ": " ++ e ++ "\n"]
  | none => []

/-- The `for _, cmd := range c.cmds` loop of `handleInput`: the first
command whose `Match` succeeds is handled; its error is rendered but the
loop returns `(false, nil)` regardless. -/
def handleLoop (input : String) : List Cmd → GoRes HandleInputOut
  | [] => .ret ⟨false, none, [], []⟩
  | cmd :: rest =>
    if cmd.Match input then
      match cmd.Handle input with
      | .crash => .crash
      | .ret err => .ret ⟨false, none, renderCmdErr cmd.Name err, [cmd.Name]⟩
    else handleLoop input rest

/-- `console.go` `handleInput`: exit command first (its handler's error
is returned verbatim together with `exit = true`), then the registry
scan. -/
def Console.handleInput (c : Console) (input : String) : GoRes HandleInputOut :=
  match c.ExitCmd with
  | (some e, true) =>
    if e.Match input then
      match e.Handle input with
      | .crash => .crash
      | .ret err => .ret ⟨true, err, [], [e.Name]⟩
    else handleLoop input c.cmds
  | _ => handleLoop input c.cmds

/-- The text before the first `' '` of a character list: the first
component of `splitCmdArgs` (specification helper, compared against the
source functions in the lemmas below). -/
def firstTokChars : List Char → List Char
  | [] => []
  | ch :: rest => if ch = ' ' then [] else ch :: firstTokChars rest

/-- The name ∪ aliases identifier set of a command, as a list. -/
def namesOf (x : Cmd) : List String := x.Name :: x.Aliases

/-- The console produced by `New` with a successful non-pipe stat and
zero options (see `new_ok_eq`). -/
def defConsole : Console :=
  { historyFile := defaultHistoryFile
    exitCmd := some quitCmd
    cmds := defaultCmds }

/-- The `echo` command of `console_test.go` (no handler, no console). -/
def echoCmd : Cmd := { Name := "echo", Description := "echo" }

/-- A command whose name contains a space. -/
def spacedCmd : Cmd := { Name := "a b" }

/-- A user command reusing the default exit command's name. -/
def regQuit : Cmd := { Name := "quit", Description := "shadowed quit" }

/-- A user command reusing the default exit command's alias. -/
def regExit : Cmd := { Name := "byebye", Aliases := ["exit"] }

/-- A command clashing with `echoCmd` through an alias. -/
def badEcho : Cmd := { Name := "fake", Aliases := ["echo"] }

/-- Concrete commands for registration scenarios. -/
def aCmd : Cmd := { Name := "alpha" }

/-- Clashes with `aCmd` through its alias. -/
def bCmd : Cmd := { Name := "beta", Aliases := ["alpha"] }

/-- Disjoint from everything else here. -/
def dCmd : Cmd := { Name := "delta" }

/-- Disjoint from everything else here. -/
def eCmd : Cmd := { Name := "epsilon" }

/-- A registered command whose handler fails with "boom". -/
def wFoo : Cmd :=
  { Name := "foo", Console := some false, Handler := some fun _ => some "boom" }

/-- A console holding `wFoo` with the default exit command. -/
def wCon : Console := { cmds := [wFoo], exitCmd := some quitCmd }

/-- A pipe-ignoring command owned by a pipe-mode console. -/
def pipeCmd : Cmd :=
  { Name := "p", IgnorePipe := true, Console := some true
    Handler := some fun _ => some "never" }

/-- A registered command whose handler echoes its raw input as an error. -/
def hCmd : Cmd :=
  { Name := "h", Console := some false, Handler := some fun s => some s }

/-- `echoCmd` with the default matcher bypassed and a custom matcher. -/
def magicCmd : Cmd :=
  { echoCmd with
    IgnoreDefaultMatcher := true
    Matcher := some fun s => s == "magic" }

/-! ## Shared lemmas -/

theorem goSplitSpaceAux_head (l acc : List Char) :
    ∃ rest, goSplitSpaceAux l acc = (acc.reverse ++ firstTokChars l) :: rest := by
  induction l generalizing acc with
  | nil => exact ⟨[], by simp [goSplitSpaceAux, firstTokChars]⟩
  | cons ch tl ih =>
    by_cases h : ch = ' '
    · subst h
      exact ⟨goSplitSpaceAux tl [], by simp [goSplitSpaceAux, firstTokChars]⟩
    · obtain ⟨r, hr⟩ := ih (ch :: acc)
      exact ⟨r, by simp [goSplitSpaceAux, firstTokChars, h, hr]⟩

theorem splitCmdArgs_fst (s : String) :
    (splitCmdArgs s).1 = String.mk (firstTokChars s.data) := by
  obtain ⟨r, hr⟩ := goSplitSpaceAux_head s.data []
  simp [splitCmdArgs, goSplitSpace, hr]

theorem firstTokChars_append (l r : List Char) (h : ' ' ∉ l) :
    firstTokChars (l ++ r) = l ++ firstTokChars r := by
  induction l with
  | nil => simp
  | cons ch tl ih =>
    have h1 : ¬ ch = ' ' := by rintro rfl; exact h (by simp)
    simp [firstTokChars, h1]
    exact ih fun hm => h (by simp [hm])

theorem firstTokChars_of_no_space (l : List Char) (h : ' ' ∉ l) :
    firstTokChars l = l := by
  simpa [firstTokChars] using firstTokChars_append l [] h

theorem splitCmdArgs_fst_of_no_space (s : String) (h : ' ' ∉ s.data) :
    (splitCmdArgs s).1 = s := by
  rw [splitCmdArgs_fst, firstTokChars_of_no_space _ h]

theorem checkCmdRegistered_iff (c : Console) (cmd : Cmd) :
    c.checkCmdRegistered cmd = true ↔
      ∃ n ∈ c.cmds, ∃ v, v ∈ namesOf n ∧ v ∈ namesOf cmd := by
  simp only [Console.checkCmdRegistered, List.any_eq_true, Bool.or_eq_true,
    beq_iff_eq, List.mem_append, namesOf, List.mem_cons]
  constructor
  · rintro ⟨n, hn, v, hv, hvc⟩
    refine ⟨n, hn, v, ?_, ?_⟩
    · rcases hv with hv | hv
      · exact Or.inr hv
      · simp at hv; exact Or.inl hv
    · rcases hvc with hvc | ⟨a, ha, rfl⟩
      · exact Or.inl hvc
      · exact Or.inr ha
  · rintro ⟨n, hn, v, hv, hvc⟩
    refine ⟨n, hn, v, ?_, ?_⟩
    · rcases hv with hv | hv
      · exact Or.inr (by simp [hv])
      · exact Or.inl hv
    · rcases hvc with hvc | hvc
      · exact Or.inl hvc
      · exact Or.inr ⟨v, hvc, rfl⟩

theorem handleLoop_append (input : String) (pre rest : List Cmd)
    (h : ∀ d ∈ pre, d.Match input = false) :
    handleLoop input (pre ++ rest) = handleLoop input rest := by
  induction pre with
  | nil => rfl
  | cons d ds ih =>
    have hd : d.Match input = false := h d (by simp)
    simp only [List.cons_append, handleLoop, hd, Bool.false_eq_true, if_false]
    exact ih fun x hx => h x (by simp [hx])

theorem handleLoop_all_unmatched (input : String) (L : List Cmd)
    (h : ∀ d ∈ L, d.Match input = false) :
    handleLoop input L = .ret ⟨false, none, [], []⟩ := by
  have := handleLoop_append input L [] h
  simpa [handleLoop] using this

theorem handleInput_eq_of_exit (c : Console) (e : Cmd) (input : String)
    (h : c.exitCmd = some e) :
    c.handleInput input =
      if e.Match input then
        match e.Handle input with
        | .crash => .crash
        | .ret err => .ret ⟨true, err, [], [e.Name]⟩
      else handleLoop input c.cmds := by
  simp [Console.handleInput, Console.ExitCmd, h]

theorem handleInput_eq_of_no_exit (c : Console) (input : String)
    (h : c.exitCmd = none) :
    c.handleInput input = handleLoop input c.cmds := by
  simp [Console.handleInput, Console.ExitCmd, h]

theorem registerCommands_append (c : Console) (pre rest : List Cmd)
    (h : (c.RegisterCommands pre).2 = none) :
    c.RegisterCommands (pre ++ rest)
      = (c.RegisterCommands pre).1.RegisterCommands rest := by
  induction pre generalizing c with
  | nil => rfl
  | cons a tl ih =>
    by_cases hch : c.checkCmdRegistered a = true
    · simp [Console.RegisterCommands, hch] at h
    · have hch' : c.checkCmdRegistered a = false := Bool.eq_false_iff.mpr hch
      simp only [Console.RegisterCommands, hch', Bool.false_eq_true, if_false,
        List.cons_append]
      apply ih
      simpa [Console.RegisterCommands, hch'] using h

theorem registerCommands_ok_shape (c : Console) (L : List Cmd)
    (h : (c.RegisterCommands L).2 = none) :
    (c.RegisterCommands L).1
      = { c with
          cmds := c.cmds ++ L.map fun x => { x with Console := some c.isOsPipe } } := by
  induction L generalizing c with
  | nil => simp [Console.RegisterCommands]
  | cons a tl ih =>
    by_cases hch : c.checkCmdRegistered a = true
    · simp [Console.RegisterCommands, hch] at h
    · have hch' : c.checkCmdRegistered a = false := Bool.eq_false_iff.mpr hch
      have h' := h
      simp only [Console.RegisterCommands, hch', Bool.false_eq_true, if_false] at h' ⊢
      rw [ih _ h']
      simp [List.append_assoc]

theorem new_ok_eq (fm : FileMode) :
    New (.ok fm) [] = .ret (.ok { defConsole with isOsPipe := fm.namedPipe }) := by
  obtain ⟨b⟩ := fm
  cases b <;> rfl

theorem stringMk_data (s : String) : String.mk s.data = s := rfl

/-! ## Claims -/

/-- C1: on every console and non-empty input line, `handleInput` checks the
exit command first: if one exists and matches, its `Handle` runs and its
error is returned verbatim with `exit = true`; otherwise the registry is
scanned in registration order and the first matching command's `Handle`
runs, its error only being rendered while `handleInput` returns
`(false, nil)`; with no match at all nothing is invoked and
`(false, nil)` is returned. -/
theorem handleInput_dispatch_order (c : Console) (input : String)
    (_hne : input ≠ "") :
    (∀ e err, c.exitCmd = some e → e.Match input = true →
        e.Handle input = .ret err →
        c.handleInput input = .ret ⟨true, err, [], [e.Name]⟩)
  ∧ (∀ pre cmd post err,
        (∀ e, c.exitCmd = some e → e.Match input = false) →
        c.cmds = pre ++ cmd :: post →
        (∀ d ∈ pre, d.Match input = false) →
        cmd.Match input = true →
        cmd.Handle input = .ret err →
        c.handleInput input
          = .ret ⟨false, none, renderCmdErr cmd.Name err, [cmd.Name]⟩)
  ∧ ((∀ e, c.exitCmd = some e → e.Match input = false) →
      (∀ d ∈ c.cmds, d.Match input = false) →
      c.handleInput input = .ret ⟨false, none, [], []⟩) := by
  refine ⟨?_, ?_, ?_⟩
  · intro e err he hm hh
    rw [handleInput_eq_of_exit c e input he, if_pos hm, hh]
  · intro pre cmd post err hexit hcmds hpre hm hh
    have hloop : handleLoop input c.cmds
        = .ret ⟨false, none, renderCmdErr cmd.Name err, [cmd.Name]⟩ := by
      rw [hcmds, handleLoop_append input pre _ hpre]
      simp [handleLoop, hm, hh]
    cases hc : c.exitCmd with
    | none => rw [handleInput_eq_of_no_exit c input hc]; exact hloop
    | some e =>
      rw [handleInput_eq_of_exit c e input hc, if_neg (by simp [hexit e hc])]
      exact hloop
  · intro hexit hall
    have hloop := handleLoop_all_unmatched input c.cmds hall
    cases hc : c.exitCmd with
    | none => rw [handleInput_eq_of_no_exit c input hc]; exact hloop
    | some e =>
      rw [handleInput_eq_of_exit c e input hc, if_neg (by simp [hexit e hc])]
      exact hloop

/-- Witness for C1: on a console holding one command `foo` whose handler
fails with "boom" and the default exit command, input "foo" runs exactly
that handler, renders the error, and still returns `(false, nil)`. -/
theorem handleInput_dispatch_order_witness :
    wFoo.Match "foo" = true
  ∧ wCon.handleInput "foo"
      = .ret ⟨false, none, ["error running command foo: boom\n"], ["foo"]⟩ := by
  constructor
  · decide
  · have h := (handleInput_dispatch_order wCon "foo" (by decide)).2.1
      [] wFoo [] (some "boom")
      (fun e he => by
        have he' : quitCmd = e := Option.some.inj he
        rw [← he']
        decide)
      rfl (by simp) (by decide) rfl
    simpa [renderCmdErr] using h

/-- C2: the default name/alias match short-circuits `Match` to true when
`ignoreDefaultMatcher` is false, independently of any custom matcher;
with `ignoreDefaultMatcher` true, `Match` is exactly the custom
matcher's verdict when one is present; when neither path matches,
`Match` is false. -/
theorem match_short_circuit (c : Cmd) (s : String) :
    (c.defaultMatcher s = true → c.IgnoreDefaultMatcher = false →
        c.Match s = true ∧ ∀ m, Cmd.Match { c with Matcher := m } s = true)
  ∧ (∀ m, c.IgnoreDefaultMatcher = true → c.Matcher = some m →
        c.Match s = m s)
  ∧ ((c.defaultMatcher s = true → c.IgnoreDefaultMatcher = true) →
      (∀ m, c.Matcher = some m → m s = false) → c.Match s = false) := by
  refine ⟨?_, ?_, ?_⟩
  · intro hd hi
    refine ⟨by simp [Cmd.Match, hd, hi], ?_⟩
    intro m
    have hdef : Cmd.Match { c with Matcher := m } s
        = if c.defaultMatcher s && !c.IgnoreDefaultMatcher then true
          else match m with | some f => f s | none => false := rfl
    rw [hdef, hd, hi]
    simp
  · intro m hi hm
    simp [Cmd.Match, hi, hm]
  · intro himp hm
    cases hd : c.defaultMatcher s with
    | false =>
      cases hmm : c.Matcher with
      | none => simp [Cmd.Match, hd, hmm]
      | some m => simp [Cmd.Match, hd, hmm, hm m hmm]
    | true =>
      have hi := himp hd
      cases hmm : c.Matcher with
      | none => simp [Cmd.Match, hd, hi, hmm]
      | some m => simp [Cmd.Match, hd, hi, hmm, hm m hmm]

/-- Witness for C2: a custom matcher answering false cannot override a
default match of `echo`, and with the default matcher bypassed the
custom matcher's verdict is returned as is. -/
theorem match_short_circuit_witness :
    Cmd.Match { echoCmd with Matcher := some fun _ => false } "echo" = true
  ∧ magicCmd.Match "magic" = true := by
  constructor
  · exact ((match_short_circuit
      { echoCmd with Matcher := some fun _ => false } "echo").1
        (by decide) rfl).1
  · have h := (match_short_circuit magicCmd "magic").2.1
      (fun s => s == "magic") rfl rfl
    simpa using h

/-- C3 counterexample: the claim quantifies over every command with
empty aliases and no custom matcher, but for a command whose name
contains a space (`"a b"`), `Match(C.name)` is false: `strings.Split`
on `" "` cuts the name itself, so the first token `"a"` differs from
the name. -/
theorem match_name_with_space_false :
    spacedCmd.Aliases = [] ∧ spacedCmd.Matcher = none
  ∧ spacedCmd.IgnoreDefaultMatcher = false
  ∧ spacedCmd.Name = "a b"
  ∧ Cmd.Match spacedCmd spacedCmd.Name = false :=
  ⟨rfl, rfl, rfl, rfl, by decide⟩

/-- C3 (amended): the default match splits the raw input at the space
character only — the first token is the prefix before the first `' '`,
a tab does not separate — and succeeds iff that token equals the name
or an alias exactly; for every command with empty aliases, no custom
matcher, and a name containing no space, `Match(name)` and
`Match(name ++ " " ++ anything)` are true, `Match(other)` is false
whenever `other`'s first token differs from the name, and
`Match(name ++ "\t" ++ anything)` is false. -/
theorem default_match_first_token (c : Cmd) (s other anything : String) :
    (c.defaultMatcher s = true ↔
        ((splitCmdArgs s).1 = c.Name ∨ (splitCmdArgs s).1 ∈ c.Aliases))
  ∧ (c.Aliases = [] → c.Matcher = none → c.IgnoreDefaultMatcher = false →
      ' ' ∉ c.Name.data →
        c.Match c.Name = true
      ∧ c.Match (c.Name ++ " " ++ anything) = true
      ∧ ((splitCmdArgs other).1 ≠ c.Name → c.Match other = false)
      ∧ c.Match (c.Name ++ "\t" ++ anything) = false) := by
  constructor
  · by_cases ht : (splitCmdArgs s).1 = c.Name
    · simp [Cmd.defaultMatcher, ht]
    · simp [Cmd.defaultMatcher, ht, List.any_eq_true, beq_iff_eq]
  · intro h1 h2 h3 h4
    have hb3 : ∀ o : String, (splitCmdArgs o).1 ≠ c.Name → c.Match o = false := by
      intro o ht
      simp [Cmd.Match, Cmd.defaultMatcher, ht, h1, h2]
    refine ⟨?_, ?_, hb3 other, ?_⟩
    · have ht : (splitCmdArgs c.Name).1 = c.Name :=
        splitCmdArgs_fst_of_no_space _ h4
      simp [Cmd.Match, Cmd.defaultMatcher, ht, h3]
    · have hdata : (c.Name ++ " " ++ anything).data
          = c.Name.data ++ (' ' :: anything.data) := by
        simp [String.data_append]
      have ht : (splitCmdArgs (c.Name ++ " " ++ anything)).1 = c.Name := by
        rw [splitCmdArgs_fst, hdata, firstTokChars_append _ _ h4]
        simp [firstTokChars, stringMk_data]
      simp [Cmd.Match, Cmd.defaultMatcher, ht, h3]
    · have hdata : (c.Name ++ "\t" ++ anything).data
          = c.Name.data ++ ('\t' :: anything.data) := by
        simp [String.data_append]
      have htok : (splitCmdArgs (c.Name ++ "\t" ++ anything)).1
          = String.mk (c.Name.data ++ '\t' :: firstTokChars anything.data) := by
        rw [splitCmdArgs_fst, hdata, firstTokChars_append _ _ h4]
        simp [firstTokChars]
      refine hb3 _ ?_
      rw [htok]
      intro heq
      have hd := congrArg String.data heq
      simp only [stringMk_data] at hd
      have hlen := congrArg List.length hd
      simp at hlen


/-- Witness for the amended C3 on the `echo` command of the test suite. -/
theorem default_match_first_token_witness :
    echoCmd.Match echoCmd.Name = true
  ∧ echoCmd.Match (echoCmd.Name ++ " " ++ "x") = true
  ∧ echoCmd.Match "foo" = false
  ∧ echoCmd.Match (echoCmd.Name ++ "\t" ++ "x") = false := by
  obtain ⟨hb1, hb2, hb3, hb4⟩ :=
    (default_match_first_token echoCmd "echo" "foo" "x").2 rfl rfl rfl (by decide)
  exact ⟨hb1, hb2, hb3 (by decide), hb4⟩

/-- C4: for a registered command, `Handle` is a silent success when both
`ignorePipe` and the owning console's pipe flag are set (the handler is
not consulted), otherwise it propagates the handler's result verbatim,
and with no handler it reports `ErrCmdNoHandler` as an error value
rather than crashing. -/
theorem handle_cases (c : Cmd) (s : String) (pipe : Bool) :
    (c.Console = some true → c.IgnorePipe = true →
        c.Handle s = .ret none
      ∧ ∀ h, Cmd.Handle { c with Handler := h } s = .ret none)
  ∧ (∀ h, c.Console = some pipe → (pipe && c.IgnorePipe) = false →
        c.Handler = some h → c.Handle s = .ret (h s))
  ∧ (c.Console = some pipe → (pipe && c.IgnorePipe) = false →
      c.Handler = none → c.Handle s = .ret (some ErrCmdNoHandler)) := by
  refine ⟨?_, ?_, ?_⟩
  · intro hc hi
    constructor
    · simp [Cmd.Handle, hc, hi]
    · intro h
      have hdef : Cmd.Handle { c with Handler := h } s
          = match c.Console with
            | none => .crash
            | some isOsPipe =>
              if isOsPipe && c.IgnorePipe then .ret none
              else
                match h with
                | some f => .ret (f s)
                | none => .ret (some ErrCmdNoHandler) := rfl
      rw [hdef, hc, hi]
      simp
  · intro h hc hp hh
    simp [Cmd.Handle, hc, hp, hh]
  · intro hc hp hh
    simp [Cmd.Handle, hc, hp, hh]

/-- Witness for C4: the pipe no-op, the verbatim handler result, and the
`NoHandler` report, each at a concrete command. -/
theorem handle_cases_witness :
    pipeCmd.Handle "p" = .ret none
  ∧ hCmd.Handle "h x" = .ret (some "h x")
  ∧ Cmd.Handle { echoCmd with Console := some false } "echo"
      = .ret (some ErrCmdNoHandler) := by
  refine ⟨?_, ?_, ?_⟩
  · exact ((handle_cases pipeCmd "p" true).1 rfl rfl).1
  · exact (handle_cases hCmd "h x" false).2.1 (fun s => some s) rfl rfl rfl
  · exact (handle_cases { echoCmd with Console := some false } "echo" false).2.2
      rfl rfl rfl

/-- Registering a list of commands that is disjoint from the registry
and pairwise disjoint succeeds and appends them in argument order, each
with its back-reference set. -/
theorem registerCommands_disjoint_ok (c : Console) (L : List Cmd)
    (hreg : ∀ x ∈ L, ∀ n ∈ c.cmds, ∀ v ∈ namesOf n, v ∉ namesOf x)
    (hpair : L.Pairwise fun x y => ∀ v ∈ namesOf x, v ∉ namesOf y) :
    c.RegisterCommands L
      = ({ c with cmds := c.cmds
            ++ L.map fun x => { x with Console := some c.isOsPipe } }, none) := by
  induction L generalizing c with
  | nil => simp [Console.RegisterCommands]
  | cons a tl ih =>
    have hch : c.checkCmdRegistered a = false := by
      apply Bool.eq_false_iff.mpr
      intro htrue
      rcases (checkCmdRegistered_iff c a).mp htrue with ⟨n, hn, v, hvn, hva⟩
      exact hreg a (by simp) n hn v hvn hva
    cases hpair with
    | cons ha htl =>
      have hreg' : ∀ x ∈ tl,
          ∀ n ∈ (c.cmds ++ [{ a with Console := some c.isOsPipe }]),
          ∀ v ∈ namesOf n, v ∉ namesOf x := by
        intro x hx n hn v hvn hvx
        rcases List.mem_append.mp hn with h1 | h2
        · exact hreg x (List.mem_cons_of_mem _ hx) n h1 v hvn hvx
        · have hna : n = { a with Console := some c.isOsPipe } := by simpa using h2
          subst hna
          exact ha x hx v hvn hvx
      simp only [Console.RegisterCommands, hch, Bool.false_eq_true, if_false]
      rw [ih _ hreg' htl]
      simp [List.append_assoc]

/-- C5: the registry uniqueness invariant: registering the same command
twice in one call fails, registering two commands with intersecting
name ∪ aliases sets fails, and registering commands whose name ∪
aliases sets are disjoint from the registry and from each other
succeeds, extending the registry in argument order. -/
theorem registerCommands_unique (c : Console) :
    (∀ a, (c.RegisterCommands [a, a]).2 = some dupErr)
  ∧ (∀ a b, (∃ v, v ∈ namesOf a ∧ v ∈ namesOf b) →
        (c.RegisterCommands [a, b]).2 = some dupErr)
  ∧ (∀ L, (∀ x ∈ L, ∀ n ∈ c.cmds, ∀ v ∈ namesOf n, v ∉ namesOf x) →
        L.Pairwise (fun x y => ∀ v ∈ namesOf x, v ∉ namesOf y) →
        c.RegisterCommands L
          = ({ c with cmds := c.cmds
                ++ L.map fun x => { x with Console := some c.isOsPipe } }, none)) := by
  refine ⟨?_, ?_, fun L hreg hpair => registerCommands_disjoint_ok c L hreg hpair⟩
  · intro a
    by_cases hch : c.checkCmdRegistered a = true
    · simp [Console.RegisterCommands, hch]
    · have hch' := Bool.eq_false_iff.mpr hch
      have hch2 : Console.checkCmdRegistered
          { c with cmds := c.cmds ++ [{ a with Console := some c.isOsPipe }] } a
            = true := by
        rw [checkCmdRegistered_iff]
        exact ⟨{ a with Console := some c.isOsPipe }, by simp, a.Name,
          by simp [namesOf], by simp [namesOf]⟩
      simp [Console.RegisterCommands, hch', hch2]
  · rintro a b ⟨v, hva, hvb⟩
    by_cases hch : c.checkCmdRegistered a = true
    · simp [Console.RegisterCommands, hch]
    · have hch' := Bool.eq_false_iff.mpr hch
      have hch2 : Console.checkCmdRegistered
          { c with cmds := c.cmds ++ [{ a with Console := some c.isOsPipe }] } b
            = true := by
        rw [checkCmdRegistered_iff]
        exact ⟨{ a with Console := some c.isOsPipe }, by simp, v, hva, hvb⟩
      simp [Console.RegisterCommands, hch', hch2]

/-- Witness for C5: the double `echo` registration of the test suite
fails, an alias clash between `alpha` and `beta` fails, and two disjoint
commands register in order on the default console. -/
theorem registerCommands_unique_witness :
    (defConsole.RegisterCommands [echoCmd, echoCmd]).2 = some dupErr
  ∧ (defConsole.RegisterCommands [aCmd, bCmd]).2 = some dupErr
  ∧ defConsole.RegisterCommands [dCmd, eCmd]
      = ({ defConsole with cmds := defConsole.cmds
            ++ [dCmd, eCmd].map fun x =>
                { x with Console := some defConsole.isOsPipe } }, none) := by
  refine ⟨?_, ?_, ?_⟩
  · exact (registerCommands_unique defConsole).1 echoCmd
  · exact (registerCommands_unique defConsole).2.1 aCmd bCmd
      ⟨"alpha", by decide, by decide⟩
  · exact (registerCommands_unique defConsole).2.2 [dCmd, eCmd]
      (by decide) (by decide)

/-- C6: registration is not transactional: when a call fails on a later
candidate, the candidates before it in the same call are already
appended with their back-references set, and the failing candidate and
everything after it are not. -/
theorem registerCommands_not_atomic (c : Console) (pre post : List Cmd) (bad : Cmd)
    (hpre : (c.RegisterCommands pre).2 = none)
    (hbad : (c.RegisterCommands pre).1.checkCmdRegistered bad = true) :
    c.RegisterCommands (pre ++ bad :: post)
      = ((c.RegisterCommands pre).1, some dupErr)
  ∧ (c.RegisterCommands pre).1.cmds
      = c.cmds ++ pre.map fun x => { x with Console := some c.isOsPipe } := by
  constructor
  · rw [registerCommands_append c pre _ hpre]
    simp [Console.RegisterCommands, hbad]
  · rw [registerCommands_ok_shape c pre hpre]

/-- Witness for C6: registering `[echo, fake(alias echo), delta]` on the
default console fails on the alias clash, with `echo` already appended
and back-referenced, `fake` and `delta` not. -/
theorem registerCommands_not_atomic_witness :
    (defConsole.RegisterCommands [echoCmd]).2 = none
  ∧ defConsole.RegisterCommands [echoCmd, badEcho, dCmd]
      = ((defConsole.RegisterCommands [echoCmd]).1, some dupErr)
  ∧ (defConsole.RegisterCommands [echoCmd]).1.cmds
      = defConsole.cmds ++ [{ echoCmd with Console := some false }] := by
  have h := registerCommands_not_atomic defConsole [echoCmd] [dCmd] badEcho
    (by decide) (by decide)
  exact ⟨by decide, h.1, h.2⟩

/-- C7: a console built with zero options (and a successful stat) holds
exactly the built-in commands: the registry is `[help, clear]` and the
distinguished exit slot is `quit`; `Close` on it returns no error. -/
theorem new_default_registry (fm : FileMode) :
    New (.ok fm) [] = .ret (.ok { defConsole with isOsPipe := fm.namedPipe })
  ∧ defConsole.cmds = [helpCmd, clearCmd]
  ∧ defConsole.exitCmd = some quitCmd
  ∧ helpCmd.Name = "help" ∧ clearCmd.Name = "clear" ∧ quitCmd.Name = "quit"
  ∧ Console.Close { defConsole with isOsPipe := fm.namedPipe } = none :=
  ⟨new_ok_eq fm, rfl, rfl, rfl, rfl, rfl, rfl⟩

/-- C8 (evaluating the code at the failing input): a failed stat on
standard input makes `New` panic — `fileIsPipe` discards the stat error
(`fi, _ := in.Stat()`) and calls `Mode()` on the nil `FileInfo` — and
`fileIsPipe` never returns a non-nil error, so the error-wrapping branch
in `New` is unreachable. -/
theorem new_stat_error_crashes :
    New (.error "stat failed") [] = .crash
  ∧ (∀ e opts, New (.error e) opts = .crash)
  ∧ (∀ e, fileIsPipe (.error e) = .crash)
  ∧ (∀ fm, fileIsPipe (.ok fm) = .ret (fm.namedPipe, none)) := by
  refine ⟨rfl, fun e opts => rfl, fun e => rfl, fun fm => ?_⟩
  obtain ⟨b⟩ := fm
  cases b <;> rfl

/-- C9: `Handle` is total exactly when the `Console` back-reference is
set: a nil back-reference is a nil-pointer dereference, and the
pre-seeded built-ins (`help`, `clear`, and the default exit command
`quit`) never get theirs set by `New`. -/
theorem handle_nil_console_crashes (c : Cmd) (s : String) :
    (c.Console = none → c.Handle s = .crash)
  ∧ (c.Console ≠ none → c.Handle s ≠ .crash)
  ∧ helpCmd.Console = none ∧ clearCmd.Console = none ∧ quitCmd.Console = none
  ∧ (∀ fm c0, New (.ok fm) [] = .ret (.ok c0) →
      ∀ d ∈ c0.cmds, d.Console = none) := by
  refine ⟨?_, ?_, rfl, rfl, rfl, ?_⟩
  · intro h
    simp [Cmd.Handle, h]
  · intro h
    cases hc : c.Console with
    | none => exact absurd hc h
    | some b =>
      simp only [Cmd.Handle, hc]
      by_cases hb : (b && c.IgnorePipe) = true
      · simp [hb]
      · have hb' := Bool.eq_false_iff.mpr hb
        cases hh : c.Handler with
        | none => simp [hb']
        | some f => simp [hb', hh]
  · intro fm c0 hnew d hd
    rw [new_ok_eq fm] at hnew
    injection hnew with h1
    injection h1 with h2
    subst h2
    simp only [defConsole, defaultCmds, List.mem_cons, List.not_mem_nil,
      or_false] at hd
    rcases hd with rfl | rfl <;> rfl

/-- Witness for C9: the unregistered `echo` command and the built-in
`help` crash when handled; a registered copy of `echo` does not. -/
theorem handle_nil_console_crashes_witness :
    echoCmd.Console = none
  ∧ echoCmd.Handle "echo" = .crash
  ∧ helpCmd.Handle "help" = .crash
  ∧ Cmd.Handle { echoCmd with Console := some false } "echo" ≠ .crash := by
  refine ⟨rfl, ?_, ?_, ?_⟩
  · exact (handle_nil_console_crashes echoCmd "echo").1 rfl
  · exact (handle_nil_console_crashes helpCmd "help").1 rfl
  · exact (handle_nil_console_crashes
      { echoCmd with Console := some false } "echo").2.1 (by simp)

/-- C10: the duplicate check consults only the registry, never the
distinguished exit command — a command reusing the exit command's name
(`quit`) or alias (`exit`) registers without error on the default
console — and whenever the exit command matches an input, dispatch is
independent of the registry contents, so such a registered command is
unreachable by default matching. -/
theorem duplicate_check_ignores_exit (c : Console) (e : Option Cmd) (x : Cmd) :
    Console.checkCmdRegistered { c with exitCmd := e } x = c.checkCmdRegistered x
  ∧ (defConsole.RegisterCommands [regQuit]).2 = none
  ∧ (defConsole.RegisterCommands [regExit]).2 = none
  ∧ (∀ input ex L, c.exitCmd = some ex → ex.Match input = true →
        Console.handleInput { c with cmds := L } input = c.handleInput input) := by
  refine ⟨rfl, by decide, by decide, ?_⟩
  intro input ex L hex hm
  rw [handleInput_eq_of_exit { c with cmds := L } ex input hex,
      handleInput_eq_of_exit c ex input hex]
  simp [hm]

/-- Witness for C10: `regQuit` (named "quit") registers on the default
console, the check ignores the exit slot, and with a matching exit
command the registry contents do not change dispatch. -/
theorem duplicate_check_ignores_exit_witness :
    Console.checkCmdRegistered { defConsole with exitCmd := none } regQuit
      = defConsole.checkCmdRegistered regQuit
  ∧ (defConsole.RegisterCommands [regQuit]).2 = none
  ∧ Console.handleInput { defConsole with cmds := [] } "quit"
      = defConsole.handleInput "quit" := by
  have h := duplicate_check_ignores_exit defConsole none regQuit
  exact ⟨h.1, h.2.1, h.2.2.2 "quit" quitCmd [] rfl (by decide)⟩
